import Mathlib

/-!
deploy-preview: the GitHub adapter (`github.go`)

A shallow embedding of `github.go` and the properties of its event
normalisation (`newGitHub`) and of its comment upsert (`Notify`).

Conventions of the embedding.

* Go `string` is `String`, Go `int` is `Int`; no arithmetic is done on the
  integers of this file, they are only copied and printed.  Strings are
  sequences of characters: on well-formed UTF-8 the byte-wise prefix and
  substring tests of Go agree with the character-wise ones used here.
* A Go `error` is represented by its text, `nil` by `none`.  Every error the
  file builds itself is text only (`errors.New`, `fmt.Errorf` with `%s`/`%v`).
* JSON texts are represented by their abstract syntax (`Json`); a text that is
  not JSON is `Body.malformed`.
* The process environment, the file system and the network are explicit
  arguments.  The network is a state transformer, and every request handed to
  `http.DefaultClient.Do` is recorded together with its outcome.
-/

namespace DeployPreview

/-! ## Library: strings and formatting -/

/-- Go `fmt.Sprintf("%d", n)` for an `int`: the decimal digits, with a leading
minus sign for a negative number. -/
def fmtInt : Int → String
  | Int.ofNat k => Nat.repr k
  | Int.negSucc k => "-" ++ Nat.repr (k + 1)

/-- Substring test on character sequences: `sub` occurs in `s` at some offset. -/
def containsChars : List Char → List Char → Bool
  | [], sub => sub.isPrefixOf []
  | c :: cs, sub => sub.isPrefixOf (c :: cs) || containsChars cs sub

/-- Go `strings.Contains(s, substr)`. -/
def Contains (s substr : String) : Bool :=
  containsChars s.data substr.data

/-- Go `strings.HasPrefix(s, prefix)`. -/
def HasPrefix (s pre : String) : Bool :=
  pre.data.isPrefixOf s.data

/-- Go `strings.TrimPrefix(s, prefix)`: `s` without the leading `prefix` when it
has it, `s` itself otherwise. -/
def TrimPrefix (s pre : String) : String :=
  if HasPrefix s pre then String.mk (s.data.drop pre.data.length) else s

/-! ## Library: JSON (`encoding/json`) -/

/-- The abstract syntax of a JSON text.  `int n` is a number literal without
fraction or exponent whose value fits Go's `int`; every other number literal is
`real`, carried as its text.  Object members keep their order, and a name may
occur more than once. -/
inductive Json where
  | null : Json
  | bool (b : Bool) : Json
  | int (n : Int) : Json
  | real (lit : String) : Json
  | str (s : String) : Json
  | arr (items : List Json) : Json
  | obj (members : List (String × Json)) : Json

/-- What a reader (a file, a response body) holds, as `json.Decoder.Decode` sees
it: a first JSON value, or a text from which no value can be read, with the
error the decoder reports for it. -/
inductive Body where
  | json (value : Json) : Body
  | malformed (err : String) : Body

/-- How `encoding/json` names the kind of a JSON value in an
`UnmarshalTypeError`. -/
def Json.kind : Json → String
  | Json.null => "null"
  | Json.bool _ => "bool"
  | Json.int _ => "number"
  | Json.real lit => "number " ++ lit
  | Json.str _ => "string"
  | Json.arr _ => "array"
  | Json.obj _ => "object"

/-- The text of an `UnmarshalTypeError`: a JSON value of kind `value` met where
the Go type `target` was expected.  The wording is the library's; nothing below
depends on it. -/
def unmarshalTypeError (value target : String) : String :=
  "json: cannot unmarshal " ++ value ++ " into Go value of type " ++ target

/-- Go `d.saveError`: the decoder keeps the earliest type error and goes on. -/
def saveError (e : String) : Option String → Option String
  | none => some e
  | some first => some first

/-- Case folding of one character as `encoding/json` does for member names: the
ASCII letters fold to upper case; the long s (U+017F) and the Kelvin sign
(U+212A) fold to `S` and `K`, the least members of their fold sets.  Other
characters never fold to an ASCII character and are left alone. -/
def foldRune (c : Char) : Char :=
  if c = Char.ofNat 0x17F then 'S'
  else if c = Char.ofNat 0x212A then 'K'
  else c.toUpper

/-- Go `foldName`: a member name matches a struct field when their folded names
are equal (an exact match is a special case). -/
def foldName (s : String) : List Char :=
  s.data.map foldRune

/-- Decoding a JSON value into a Go `string` variable holding `cur`: a string is
stored, `null` leaves the variable alone, anything else is a type error that
leaves it alone as well. -/
def storeString (j : Json) (cur : String) (err : Option String) : String × Option String :=
  match j with
  | Json.str s => (s, err)
  | Json.null => (cur, err)
  | v => (cur, saveError (unmarshalTypeError v.kind "string") err)

/-- Decoding a JSON value into a Go `int` variable holding `cur`. -/
def storeInt (j : Json) (cur : Int) (err : Option String) : Int × Option String :=
  match j with
  | Json.int n => (n, err)
  | Json.null => (cur, err)
  | v => (cur, saveError (unmarshalTypeError v.kind "int") err)

/-- Decoding a JSON value into a Go struct variable holding `cur`: the members
of an object are visited in order, and `field` stores one member (given by its
folded name) into the struct; `null` leaves the struct alone; anything else is
a type error. -/
def storeStruct {α : Type} (target : String)
    (field : List Char → Json → α → Option String → α × Option String)
    (j : Json) (cur : α) (err : Option String) : α × Option String :=
  match j with
  | Json.obj members =>
      members.foldl (fun acc kv => field (foldName kv.1) kv.2 acc.1 acc.2) (cur, err)
  | Json.null => (cur, err)
  | v => (cur, saveError (unmarshalTypeError v.kind target) err)

/-- Go `json.NewDecoder(r).Decode(&v)` for a variable `v` holding `cur`, where
`store` decodes a JSON value into a variable of that type: the value after the
call, and the error returned (a malformed text leaves `v` alone). -/
def Decode {α : Type} (store : Json → α → Option String → α × Option String)
    (r : Body) (cur : α) : α × Option String :=
  match r with
  | Body.malformed e => (cur, some e)
  | Body.json j => store j cur none

/-- Decoding a JSON value into a Go slice variable holding `cur`: the items of
an array are decoded in order, the item at an index the slice already has into
the element found there and the others into a zero element, and the slice ends
up as long as the array; `null` makes the slice nil; anything else is a type
error.  (`Notify` only ever decodes into a nil slice.) -/
def storeSlice {α : Type} (target : String) (zero : α)
    (store : Json → α → Option String → α × Option String)
    (j : Json) (cur : List α) (err : Option String) : List α × Option String :=
  match j with
  | Json.arr items =>
      items.foldl
        (fun acc item =>
          let r := store item ((cur.drop acc.1.length).headD zero) acc.2
          (acc.1 ++ [r.1], r.2))
        ([], err)
  | Json.null => ([], err)
  | v => (cur, saveError (unmarshalTypeError v.kind target) err)

/-! ## Library: URLs and HTTP (`net/url`, `net/http`) -/

/-- Go `url.JoinPath(base, elem...)` for a `base` that ends in a slash and path
elements that are clean and need no escaping (no empty, `.` or `..` segment, no
doubled or trailing slash), as repository full names and decimal numbers are:
the elements joined by slashes under the base. -/
def JoinPath (base : String) (elem : List String) : String :=
  base ++ String.intercalate "/" elem

/-- An outgoing request as `callGitHub` builds it: the method, the URL, the
`Authorization` header and the body (`none` for a nil reader), the body given
by the JSON value whose text it is. -/
structure Request where
  Method : String
  URL : String
  Authorization : String
  Body : Option Json

/-- The part of an `http.Response` the program reads. -/
structure Response where
  StatusCode : Int
  Body : Body

/-- One call of `http.DefaultClient.Do`: the request and what came back, a
response or a transport error. -/
structure Exchange where
  request : Request
  outcome : Except String Response

/-- The remote end: given a request and its state, what comes back and its
state afterwards. -/
abbrev Transport (σ : Type) : Type :=
  Request → σ → Except String Response × σ

/-- The world outside the process as far as HTTP goes: the state of the remote
end, and every exchange made so far, oldest first. -/
structure Net (σ : Type) where
  remote : σ
  log : List Exchange

/-- Go `http.DefaultClient.Do(req)`: the request reaches the remote end, whose
state moves on, and the exchange is recorded. -/
def Do {σ : Type} (t : Transport σ) (req : Request) (w : Net σ) :
    Except String Response × Net σ :=
  let r := t req w.remote
  (r.1, { remote := r.2, log := w.log ++ [{ request := req, outcome := r.1 }] })

/-! ## Library: the process environment -/

/-- The environment variables of the process. -/
abbrev Env : Type := String → Option String

/-- Go `os.Getenv(key)`: the value, empty when the variable is not set. -/
def Getenv (env : Env) (key : String) : String :=
  (env key).getD ""

/-! ## `github.go`: the data model -/

/-- The `head` member of `pull_request` in `GitHubEvent`. -/
structure EventHead where
  Ref : String

/-- The `pull_request` member of `GitHubEvent`. -/
structure EventPullRequest where
  Number : Int
  Head : EventHead

/-- The `repository` member of `GitHubEvent`. -/
structure EventRepository where
  HtmlURL : String
  FullName : String

/-- The `pull_request` member of `client_payload` in `GitHubEvent`. -/
structure EventClientPullRequest where
  Number : Int

/-- The `client_payload` member of `GitHubEvent`. -/
structure EventClientPayload where
  PullRequest : EventClientPullRequest

/-- Go `type GitHubEvent struct`. -/
structure GitHubEvent where
  PullRequest : EventPullRequest
  Repository : EventRepository
  ClientPayload : EventClientPayload

/-- The zero value of `GitHubEvent`, what `var payload GitHubEvent` holds. -/
def GitHubEvent.zero : GitHubEvent :=
  { PullRequest := { Number := 0, Head := { Ref := "" } },
    Repository := { HtmlURL := "", FullName := "" },
    ClientPayload := { PullRequest := { Number := 0 } } }

/-- Go `type GitHubComment struct`. -/
structure GitHubComment where
  ID : Int
  Body : String

/-- The zero value of `GitHubComment`. -/
def GitHubComment.zero : GitHubComment :=
  { ID := 0, Body := "" }

/-- Go `type github struct`. -/
structure github where
  repositoryURL : String
  prNumber : Int
  defaultBranch : String
  repositoryName : String

/-- The anonymous struct `errResp` of `callGitHub`. -/
structure ErrResp where
  Message : String

/-! ## `github.go`: how the JSON tags of its types decode -/

/-- Decoding into `pull_request.head`: the member `ref`. -/
def storeEventHead : Json → EventHead → Option String → EventHead × Option String :=
  storeStruct "struct { Ref string }" (fun k v cur err =>
    if k = foldName "ref" then
      let r := storeString v cur.Ref err
      ({ cur with Ref := r.1 }, r.2)
    else (cur, err))

/-- Decoding into `pull_request`: the members `number` and `head`. -/
def storeEventPullRequest :
    Json → EventPullRequest → Option String → EventPullRequest × Option String :=
  storeStruct "struct { Number int; Head struct { Ref string } }" (fun k v cur err =>
    if k = foldName "number" then
      let r := storeInt v cur.Number err
      ({ cur with Number := r.1 }, r.2)
    else if k = foldName "head" then
      let r := storeEventHead v cur.Head err
      ({ cur with Head := r.1 }, r.2)
    else (cur, err))

/-- Decoding into `repository`: the members `html_url` and `full_name`. -/
def storeEventRepository :
    Json → EventRepository → Option String → EventRepository × Option String :=
  storeStruct "struct { HtmlURL string; FullName string }" (fun k v cur err =>
    if k = foldName "html_url" then
      let r := storeString v cur.HtmlURL err
      ({ cur with HtmlURL := r.1 }, r.2)
    else if k = foldName "full_name" then
      let r := storeString v cur.FullName err
      ({ cur with FullName := r.1 }, r.2)
    else (cur, err))

/-- Decoding into `client_payload.pull_request`: the member `number`. -/
def storeEventClientPullRequest :
    Json → EventClientPullRequest → Option String → EventClientPullRequest × Option String :=
  storeStruct "struct { Number int }" (fun k v cur err =>
    if k = foldName "number" then
      let r := storeInt v cur.Number err
      ({ cur with Number := r.1 }, r.2)
    else (cur, err))

/-- Decoding into `client_payload`: the member `pull_request`. -/
def storeEventClientPayload :
    Json → EventClientPayload → Option String → EventClientPayload × Option String :=
  storeStruct "struct { PullRequest struct { Number int } }" (fun k v cur err =>
    if k = foldName "pull_request" then
      let r := storeEventClientPullRequest v cur.PullRequest err
      ({ cur with PullRequest := r.1 }, r.2)
    else (cur, err))

/-- Decoding into a `GitHubEvent`: the members `pull_request`, `repository` and
`client_payload`; every other member is skipped. -/
def storeGitHubEvent : Json → GitHubEvent → Option String → GitHubEvent × Option String :=
  storeStruct "main.GitHubEvent" (fun k v cur err =>
    if k = foldName "pull_request" then
      let r := storeEventPullRequest v cur.PullRequest err
      ({ cur with PullRequest := r.1 }, r.2)
    else if k = foldName "repository" then
      let r := storeEventRepository v cur.Repository err
      ({ cur with Repository := r.1 }, r.2)
    else if k = foldName "client_payload" then
      let r := storeEventClientPayload v cur.ClientPayload err
      ({ cur with ClientPayload := r.1 }, r.2)
    else (cur, err))

/-- Decoding into a `GitHubComment`: the members `id` and `body`. -/
def storeGitHubComment :
    Json → GitHubComment → Option String → GitHubComment × Option String :=
  storeStruct "main.GitHubComment" (fun k v cur err =>
    if k = foldName "id" then
      let r := storeInt v cur.ID err
      ({ cur with ID := r.1 }, r.2)
    else if k = foldName "body" then
      let r := storeString v cur.Body err
      ({ cur with Body := r.1 }, r.2)
    else (cur, err))

/-- Decoding into a `[]GitHubComment`. -/
def storeGitHubComments :
    Json → List GitHubComment → Option String → List GitHubComment × Option String :=
  storeSlice "[]main.GitHubComment" GitHubComment.zero storeGitHubComment

/-- Decoding into the `errResp` of `callGitHub`: the member `message`. -/
def storeErrResp : Json → ErrResp → Option String → ErrResp × Option String :=
  storeStruct "struct { Message string }" (fun k v cur err =>
    if k = foldName "message" then
      let r := storeString v cur.Message err
      ({ cur with Message := r.1 }, r.2)
    else (cur, err))

/-! ## `github.go`: the functions -/

/-- Go `newGitHub`, given the environment and what `os.Open` finds at a path
(the content of the file as the decoder will see it, or the error of opening
it).  Logging is left out. -/
def newGitHub (env : Env) (open_ : String → Except String Body) : Except String github :=
  match open_ (Getenv env "GITHUB_EVENT_PATH") with
  | Except.error err => Except.error err
  | Except.ok event =>
    match Decode storeGitHubEvent event GitHubEvent.zero with
    | (_, some err) => Except.error err
    | (payload, none) =>
      let gh : github :=
        { repositoryURL := "", prNumber := 0, defaultBranch := "", repositoryName := "" }
      let name := Getenv env "GITHUB_EVENT_NAME"
      if name = "pull_request" ∨ name = "pull_request_target" then
        Except.ok { gh with
          prNumber := payload.PullRequest.Number,
          defaultBranch := payload.PullRequest.Head.Ref,
          repositoryURL := payload.Repository.HtmlURL,
          repositoryName := payload.Repository.FullName }
      else if name = "repository_dispatch" then
        Except.ok { gh with
          prNumber := payload.ClientPayload.PullRequest.Number,
          defaultBranch := TrimPrefix (Getenv env "GITHUB_REF") "refs/heads/",
          repositoryURL := payload.Repository.HtmlURL,
          repositoryName := payload.Repository.FullName }
      else Except.ok gh

/-- Go `(gh *github) RepositoryURL`. -/
def github.RepositoryURL (gh : github) : String :=
  gh.repositoryURL

/-- Go `(gh *github) SourceURL`: `fmt.Sprintf("%s/pull/%d", ...)`. -/
def github.SourceURL (gh : github) : String :=
  gh.repositoryURL ++ "/pull/" ++ fmtInt gh.prNumber

/-- Go `(gh *github) DefaultBranch`. -/
def github.DefaultBranch (gh : github) : String :=
  gh.defaultBranch

/-- Go `(gh *github) PRNumber`. -/
def github.PRNumber (gh : github) : Int :=
  gh.prNumber

/-- Go `(gh *github) previewIdentifier`:
`fmt.Sprintf("<!-- okteto-preview %d -->", gh.prNumber)`. -/
def github.previewIdentifier (gh : github) : String :=
  "<!-- okteto-preview " ++ fmtInt gh.prNumber ++ " -->"

/-- Go `(gh *github) getGitHubCommentMessage`: the JSON object with the one
member `body`, the message followed by the identifier.  `json.Marshal` cannot
fail on a struct with one string field, so the error branch is never taken. -/
def github.getGitHubCommentMessage (gh : github) (message : String) : Except String Json :=
  let msgBody : String := message ++ gh.previewIdentifier
  Except.ok (Json.obj [("body", Json.str msgBody)])

/-- Go `(gh *github) callGitHub`. -/
def github.callGitHub {σ : Type} (_gh : github) (t : Transport σ)
    (token method repo : String) (body : Option Json) (path : List String) (w : Net σ) :
    Except String Response × Net σ :=
  let path := repo :: path
  let uri := JoinPath "https://api.github.com/repos/" path
  let req : Request :=
    { Method := method, URL := uri, Authorization := "token " ++ token, Body := body }
  match Do t req w with
  | (Except.error err, w) => (Except.error err, w)
  | (Except.ok r, w) =>
    if r.StatusCode < 200 ∨ r.StatusCode ≥ 400 then
      match Decode storeErrResp r.Body { Message := "" } with
      | (_, some err) => (Except.error ("failed to decode body: " ++ err), w)
      | (errResp, none) => (Except.error errResp.Message, w)
    else (Except.ok r, w)

/-- Go `(gh *github) Notify`.  The result is the error returned (`none` for
`nil`) and the world afterwards.  Logging and printing are left out. -/
def github.Notify {σ : Type} (gh : github) (t : Transport σ) (env : Env)
    (message : String) (w : Net σ) : Option String × Net σ :=
  let githubToken := Getenv env "GITHUB_TOKEN"
  if githubToken = "" then (some "missing GITHUB_TOKEN", w)
  else
    match gh.callGitHub t githubToken "GET" gh.repositoryName none
        ["issues", fmtInt gh.prNumber, "comments"] w with
    | (Except.error err, w) => (some ("failed to retrieve PR comments: " ++ err), w)
    | (Except.ok resp, w) =>
      let comments := (Decode storeGitHubComments resp.Body []).1
      let identifier := gh.previewIdentifier
      let comment := comments.find? (fun c => Contains c.Body identifier)
      match gh.getGitHubCommentMessage message with
      | Except.error err => (some err, w)
      | Except.ok msgBodyBuf =>
        match comment with
        | none =>
          match gh.callGitHub t githubToken "POST" gh.repositoryName (some msgBodyBuf)
              ["issues", fmtInt gh.prNumber, "comments"] w with
          | (Except.error err, w) => (some ("failed to create new comment: " ++ err), w)
          | (Except.ok _, w) => (none, w)
        | some c =>
          match gh.callGitHub t githubToken "PATCH" gh.repositoryName (some msgBodyBuf)
              ["issues", "comments", fmtInt c.ID] w with
          | (Except.error err, w) => (some ("failed to update comment: " ++ err), w)
          | (Except.ok _, w) => (none, w)

/-! ## The requests `Notify` builds, and when an exchange counts as failed -/

/-- The root every request of `callGitHub` is addressed under. -/
def apiRoot : String := "https://api.github.com/repos/"

/-- The request that lists the comments of the pull request:
`GET .../repos/{repositoryName}/issues/{prNumber}/comments`. -/
def github.listRequest (gh : github) (token : String) : Request :=
  { Method := "GET",
    URL := JoinPath apiRoot [gh.repositoryName, "issues", fmtInt gh.prNumber, "comments"],
    Authorization := "token " ++ token,
    Body := none }

/-- The request that creates a comment:
`POST .../repos/{repositoryName}/issues/{prNumber}/comments` with the body
`{"body": message ++ identifier}`. -/
def github.createRequest (gh : github) (token message : String) : Request :=
  { Method := "POST",
    URL := JoinPath apiRoot [gh.repositoryName, "issues", fmtInt gh.prNumber, "comments"],
    Authorization := "token " ++ token,
    Body := some (Json.obj [("body", Json.str (message ++ gh.previewIdentifier))]) }

/-- The request that overwrites the comment `id`:
`PATCH .../repos/{repositoryName}/issues/comments/{id}` with the body
`{"body": message ++ identifier}`. -/
def github.updateRequest (gh : github) (token message : String) (id : Int) : Request :=
  { Method := "PATCH",
    URL := JoinPath apiRoot [gh.repositoryName, "issues", "comments", fmtInt id],
    Authorization := "token " ++ token,
    Body := some (Json.obj [("body", Json.str (message ++ gh.previewIdentifier))]) }

/-- An outcome of `http.DefaultClient.Do` that `callGitHub` turns into an error:
a transport error, or a status below 200 or from 400 on. -/
def failedOutcome : Except String Response → Bool
  | Except.error _ => true
  | Except.ok r => decide (r.StatusCode < 200 ∨ r.StatusCode ≥ 400)

/-- A request that writes: a `POST` or a `PATCH`. -/
def Request.isWrite (req : Request) : Bool :=
  decide (req.Method = "POST" ∨ req.Method = "PATCH")

/-- The comments `Notify` reads from the body of a list response: the body
decoded into a nil slice, the decoding error dropped. -/
def listedComments (b : Body) : List GitHubComment :=
  (Decode storeGitHubComments b []).1

/-! ## The remote end -/

/-- The JSON object the platform renders a comment as. -/
def commentJson (c : GitHubComment) : Json :=
  Json.obj [("id", Json.int c.ID), ("body", Json.str c.Body)]

/-- An id no comment of the list has: one more than the largest. -/
def freshID (cs : List GitHubComment) : Int :=
  cs.foldl (fun m c => max m c.ID) 0 + 1

/-- The text a write request carries: the `body` member of `{"body": string}`. -/
def writtenBody : Option Json → Option String
  | some (Json.obj [(k, Json.str b)]) => if k = "body" then some b else none
  | _ => none

/-- The environment `Notify` talks to: the hosting platform's comment API for one
issue of one repository, as the outbound protocol of the specification
(section 6) describes it.  It is not part of the program.  Its state is the
comment list of the issue, in the order it lists them.  `GET` on the collection answers 200 with all comments; `POST` on the
collection appends a comment with a fresh id and answers 201; `PATCH` on a
comment's own URL overwrites its body and answers 200.  A write without a
proper body is answered 422, anything else 404.  Every credential is accepted. -/
def gitHubAPI (repo : String) (issue : Int) : Transport (List GitHubComment) :=
  fun req cs =>
    let collection := JoinPath apiRoot [repo, "issues", fmtInt issue, "comments"]
    if req.Method = "GET" ∧ req.URL = collection then
      (Except.ok { StatusCode := 200, Body := Body.json (Json.arr (cs.map commentJson)) }, cs)
    else if req.Method = "POST" ∧ req.URL = collection then
      match writtenBody req.Body with
      | some b =>
        let c : GitHubComment := { ID := freshID cs, Body := b }
        (Except.ok { StatusCode := 201, Body := Body.json (commentJson c) }, cs ++ [c])
      | none =>
        (Except.ok { StatusCode := 422,
                     Body := Body.json (Json.obj [("message", Json.str "Validation Failed")]) },
         cs)
    else if req.Method = "PATCH" then
      match cs.find? (fun c =>
          decide (req.URL = JoinPath apiRoot [repo, "issues", "comments", fmtInt c.ID])),
          writtenBody req.Body with
      | some c, some b =>
        (Except.ok { StatusCode := 200,
                     Body := Body.json (commentJson { ID := c.ID, Body := b }) },
         cs.map (fun x => if x.ID = c.ID then { x with Body := b } else x))
      | some _, none =>
        (Except.ok { StatusCode := 422,
                     Body := Body.json (Json.obj [("message", Json.str "Validation Failed")]) },
         cs)
      | none, _ =>
        (Except.ok { StatusCode := 404,
                     Body := Body.json (Json.obj [("message", Json.str "Not Found")]) },
         cs)
    else
      (Except.ok { StatusCode := 404,
                   Body := Body.json (Json.obj [("message", Json.str "Not Found")]) },
       cs)

/-- A remote end with no state that answers every `GET` with `onGet` and every
other request with `onWrite`. -/
def scripted (onGet onWrite : Except String Response) : Transport Unit :=
  fun req _ => (if req.Method = "GET" then onGet else onWrite, ())

/-- An environment in which only `GITHUB_TOKEN` is set. -/
def tokenEnv (token : String) : Env :=
  fun key => if key = "GITHUB_TOKEN" then some token else none

/-- An environment in which no variable is set. -/
def emptyEnv : Env :=
  fun _ => none

/-- A context for the pull request `n` of the repository `o/r`. -/
def sampleContext (n : Int) : github :=
  { repositoryURL := "https://example.com/o/r", prNumber := n,
    defaultBranch := "fix-1", repositoryName := "o/r" }

/-- An environment of a workflow run: the event file is at
`/github/workflow/event.json`, the trigger is `name` and the ref is `ref`. -/
def eventEnv (name ref : String) : Env :=
  fun key =>
    if key = "GITHUB_EVENT_PATH" then some "/github/workflow/event.json"
    else if key = "GITHUB_EVENT_NAME" then some name
    else if key = "GITHUB_REF" then some ref
    else none

/-- A file system that holds the one file `/github/workflow/event.json`, with
the content `event`. -/
def eventFile (event : Body) : String → Except String Body :=
  fun path =>
    if path = "/github/workflow/event.json" then Except.ok event
    else Except.error ("open " ++ path ++ ": no such file or directory")

/-- The payload of the scenario of the specification: pull request 42 with
head `fix-1` in the repository `o/r`. -/
def pullRequestEvent : Json :=
  Json.obj
    [("pull_request",
        Json.obj [("number", Json.int 42), ("head", Json.obj [("ref", Json.str "fix-1")])]),
     ("repository",
        Json.obj [("html_url", Json.str "https://example.com/o/r"),
                  ("full_name", Json.str "o/r")])]

/-- A dispatch payload: `client_payload` names pull request 42, next to a
`pull_request` member that names another number. -/
def dispatchEvent : Json :=
  Json.obj
    [("pull_request", Json.obj [("number", Json.int 7)]),
     ("client_payload", Json.obj [("pull_request", Json.obj [("number", Json.int 42)])]),
     ("repository",
        Json.obj [("html_url", Json.str "https://example.com/o/r"),
                  ("full_name", Json.str "o/r")])]

/-! ## Auxiliary definitions for the proofs -/

/-- The number a sequence of decimal digits stands for, most significant digit
first. -/
def decimalValue (ds : List Char) : Nat :=
  ds.foldl (fun acc c => 10 * acc + (c.toNat - 48)) 0

/-- The characters of the identifier before the number, without the blank that
ends them. -/
def identifierHead : List Char := "<!-- okteto-preview".data

/-- The characters of the identifier of the pull request `n`. -/
def identifierChars (n : Int) : List Char :=
  identifierHead ++ ' ' :: ((fmtInt n).data ++ [' ', '-', '-', '>'])

/-- What `callGitHub` makes of an outcome of `http.DefaultClient.Do`, taken on
its own: a transport error is passed on, a status below 200 or from 400 on
becomes an error, and any other response is returned as it is. -/
def gateway : Except String Response → Except String Response
  | Except.error err => Except.error err
  | Except.ok r =>
    if r.StatusCode < 200 ∨ r.StatusCode ≥ 400 then
      match Decode storeErrResp r.Body { Message := "" } with
      | (_, some err) => Except.error ("failed to decode body: " ++ err)
      | (errResp, none) => Except.error errResp.Message
    else Except.ok r

/-- The request `callGitHub` builds from its arguments. -/
def apiRequest (token method repo : String) (body : Option Json) (path : List String) :
    Request :=
  { Method := method,
    URL := JoinPath apiRoot (repo :: path),
    Authorization := "token " ++ token,
    Body := body }

/-- The world after one more exchange: the request `req` sent to the remote end
`t`. -/
def Net.after {σ : Type} (t : Transport σ) (req : Request) (w : Net σ) : Net σ :=
  { remote := (t req w.remote).2,
    log := w.log ++ [{ request := req, outcome := (t req w.remote).1 }] }

/-! ## Lemmas: substrings -/

theorem containsChars_iff (l sub : List Char) :
    containsChars l sub = true ↔ sub <:+: l := by
  induction l with
  | nil => simp [containsChars]
  | cons c cs ih =>
    simp only [containsChars, Bool.or_eq_true, ih, List.infix_cons_iff,
      List.isPrefixOf_iff_prefix]

theorem Contains_iff (s sub : String) :
    Contains s sub = true ↔ sub.data <:+: s.data := by
  simp only [Contains, containsChars_iff]

theorem Contains_eq_false_iff (s sub : String) :
    Contains s sub = false ↔ ¬ sub.data <:+: s.data := by
  rw [← Contains_iff]; simp

/-- Two ways of cutting one list at an element that does not occur after the
cut agree. -/
theorem cut_at_last {α : Type} (x : α) (u v u2 v2 : List α)
    (hv : x ∉ v) (hv2 : x ∉ v2) (h : u ++ x :: v = u2 ++ x :: v2) :
    u = u2 ∧ v = v2 := by
  rcases List.append_eq_append_iff.mp h with ⟨a, hu, ha⟩ | ⟨a, hu, ha⟩
  · cases a with
    | nil => simp at hu ha; exact ⟨hu.symm, ha⟩
    | cons y a =>
      simp only [List.cons_append, List.cons.injEq] at ha
      exact absurd (by rw [ha.2]; simp) hv
  · cases a with
    | nil => simp at hu ha; exact ⟨hu, ha.symm⟩
    | cons y a =>
      simp only [List.cons_append, List.cons.injEq] at ha
      exact absurd (by rw [ha.2]; simp) hv2

/-- A list that ends in `x` and is cut out of the front part of `q ++ [x]`,
where `x` does not occur in `q`, reaches the end of it. -/
theorem cut_at_only {α : Type} (x : α) (u v q : List α)
    (hq : x ∉ q) (h : u ++ x :: v = q ++ [x]) : u = q ∧ v = [] := by
  rcases List.append_eq_append_iff.mp h with ⟨a, hu, ha⟩ | ⟨a, hu, ha⟩
  · cases a with
    | nil => simp at hu ha; exact ⟨hu.symm, ha⟩
    | cons y a =>
      simp only [List.cons_append, List.cons.injEq] at ha
      exact absurd (by rw [hu, ha.1]; simp) hq
  · cases a with
    | nil => simp at hu ha; exact ⟨hu, ha⟩
    | cons y a => simp at ha

/-! ## Lemmas: decimal numbers -/

theorem digitChar_isDigit (k : Nat) (hk : k < 10) : (Nat.digitChar k).isDigit = true := by
  interval_cases k <;> decide

theorem digitChar_value (k : Nat) (hk : k < 10) : (Nat.digitChar k).toNat - 48 = k := by
  interval_cases k <;> decide

theorem toDigitsCore_append (f : Nat) : ∀ (n : Nat) (ds : List Char),
    Nat.toDigitsCore 10 f n ds = Nat.toDigitsCore 10 f n [] ++ ds := by
  induction f with
  | zero => intro n ds; simp [Nat.toDigitsCore]
  | succ f ih =>
    intro n ds
    simp only [Nat.toDigitsCore]
    split
    · simp
    · rw [ih (n / 10) (Nat.digitChar (n % 10) :: ds), ih (n / 10) [Nat.digitChar (n % 10)]]
      simp

theorem toDigitsCore_isDigit (f : Nat) : ∀ (n : Nat) (c : Char),
    c ∈ Nat.toDigitsCore 10 f n [] → c.isDigit = true := by
  induction f with
  | zero => intro n c h; simp [Nat.toDigitsCore] at h
  | succ f ih =>
    intro n c h
    simp only [Nat.toDigitsCore] at h
    split at h
    · simp only [List.mem_singleton] at h
      rw [h]; exact digitChar_isDigit _ (Nat.mod_lt _ (by decide))
    · rw [toDigitsCore_append] at h
      rcases List.mem_append.mp h with h | h
      · exact ih _ _ h
      · simp only [List.mem_singleton] at h
        rw [h]; exact digitChar_isDigit _ (Nat.mod_lt _ (by decide))

theorem decimalValue_append (ds : List Char) (c : Char) :
    decimalValue (ds ++ [c]) = 10 * decimalValue ds + (c.toNat - 48) := by
  simp [decimalValue, List.foldl_append]

theorem decimalValue_toDigitsCore (f : Nat) : ∀ (n : Nat), n < f →
    decimalValue (Nat.toDigitsCore 10 f n []) = n := by
  induction f with
  | zero => intro n h; omega
  | succ f ih =>
    intro n h
    simp only [Nat.toDigitsCore]
    split
    · rename_i h0
      have hn : n % 10 = n := by omega
      have hv := digitChar_value (n % 10) (Nat.mod_lt _ (by decide))
      rw [hn] at hv
      simp [decimalValue, hn, hv]
    · rename_i h0
      rw [toDigitsCore_append, decimalValue_append, ih (n / 10) (by omega),
        digitChar_value (n % 10) (Nat.mod_lt _ (by decide))]
      omega

theorem repr_data (n : Nat) : (Nat.repr n).data = Nat.toDigits 10 n := rfl

theorem decimalValue_repr (n : Nat) : decimalValue (Nat.repr n).data = n := by
  rw [repr_data]
  exact decimalValue_toDigitsCore (n + 1) n (Nat.lt_succ_self n)

theorem repr_isDigit (n : Nat) (c : Char) (h : c ∈ (Nat.repr n).data) : c.isDigit = true := by
  rw [repr_data] at h
  exact toDigitsCore_isDigit _ _ _ h

theorem fmtInt_chars (n : Int) (c : Char) (h : c ∈ (fmtInt n).data) :
    c.isDigit = true ∨ c = '-' := by
  cases n with
  | ofNat k => exact Or.inl (repr_isDigit k c h)
  | negSucc k =>
    simp only [fmtInt, String.data_append, List.mem_append] at h
    rcases h with h | h
    · right; simpa using h
    · exact Or.inl (repr_isDigit _ c h)

theorem fmtInt_injective (a b : Int) (h : fmtInt a = fmtInt b) : a = b := by
  have hd : (fmtInt a).data = (fmtInt b).data := by rw [h]
  cases a with
  | ofNat x =>
    cases b with
    | ofNat y =>
      have := congrArg decimalValue hd
      simp only [fmtInt, decimalValue_repr] at this
      rw [this]
    | negSucc y =>
      exfalso
      have hm : '-' ∈ (Nat.repr x).data := by
        simp only [fmtInt, String.data_append] at hd
        rw [hd]; simp
      exact absurd (repr_isDigit x _ hm) (by decide)
  | negSucc x =>
    cases b with
    | ofNat y =>
      exfalso
      have hm : '-' ∈ (Nat.repr y).data := by
        simp only [fmtInt, String.data_append] at hd
        rw [← hd]; simp
      exact absurd (repr_isDigit y _ hm) (by decide)
    | negSucc y =>
      simp only [fmtInt, String.data_append, List.append_cancel_left_eq] at hd
      have := congrArg decimalValue hd
      simp only [decimalValue_repr] at this
      have hxy : x = y := by omega
      rw [hxy]

/-! ## Lemmas: the identifier -/

theorem previewIdentifier_data (gh : github) :
    gh.previewIdentifier.data = identifierChars gh.prNumber := by
  simp only [github.previewIdentifier, identifierChars, identifierHead, String.data_append]
  simp

theorem fmtInt_no_blank (n : Int) : ' ' ∉ (fmtInt n).data := by
  intro h
  rcases fmtInt_chars n _ h with h | h
  · exact absurd h (by decide)
  · exact absurd h (by decide)

theorem fmtInt_no_gt (n : Int) : '>' ∉ (fmtInt n).data := by
  intro h
  rcases fmtInt_chars n _ h with h | h
  · exact absurd h (by decide)
  · exact absurd h (by decide)

/-- The closing `>` occurs in an identifier at its end only. -/
theorem identifierChars_eq (n : Int) :
    identifierChars n = (identifierHead ++ ' ' :: ((fmtInt n).data ++ [' ', '-', '-'])) ++ ['>'] := by
  simp [identifierChars]

theorem identifierChars_front_no_gt (n : Int) :
    '>' ∉ identifierHead ++ ' ' :: ((fmtInt n).data ++ [' ', '-', '-']) := by
  intro h
  simp only [List.mem_append, List.mem_cons] at h
  rcases h with h | h | h | h
  · exact absurd h (by decide)
  · exact absurd h (by decide)
  · exact fmtInt_no_gt n h
  · revert h; decide

/-- An identifier that occurs in `msg` followed by the identifier of another
number already occurs in `msg`. -/
theorem identifierChars_infix_append (msg : List Char) (n m : Int) (hnm : n ≠ m)
    (h : identifierChars n <:+: msg ++ identifierChars m) : identifierChars n <:+: msg := by
  obtain ⟨s, t, hst⟩ := h
  rcases List.append_eq_append_iff.mp hst with ⟨a, ha, _⟩ | ⟨c, hc, hm⟩
  · exact ⟨s, a, ha.symm⟩
  · rcases List.eq_nil_or_concat c with hnil | ⟨c2, z, hcz⟩
    · subst hnil
      exact ⟨s, [], by simpa using hc⟩
    · exfalso
      subst hcz
      rw [List.concat_eq_append] at hc hm
      rw [identifierChars_eq n, ← List.append_assoc, ← List.append_assoc,
        ← List.append_assoc msg] at hc
      have hlast := List.append_inj_right' hc rfl
      have hfront := List.append_inj_left' hc rfl
      simp only [List.cons.injEq, and_true] at hlast
      subst hlast
      rw [identifierChars_eq m] at hm
      have hcut := cut_at_only '>' c2 t _ (identifierChars_front_no_gt m)
        (by rw [hm]; simp)
      rw [hcut.1] at hfront
      have h2 : (s ++ identifierHead) ++ ' ' :: (fmtInt n).data
          = (msg ++ identifierHead) ++ ' ' :: (fmtInt m).data := by
        have h3 : ((s ++ identifierHead) ++ ' ' :: (fmtInt n).data) ++ [' ', '-', '-']
            = ((msg ++ identifierHead) ++ ' ' :: (fmtInt m).data) ++ [' ', '-', '-'] := by
          simpa using hfront
        exact List.append_cancel_right h3
      have h4 := (cut_at_last ' ' _ _ _ _ (fmtInt_no_blank n) (fmtInt_no_blank m) h2).2
      have h5 : fmtInt n = fmtInt m := String.ext h4
      exact hnm (fmtInt_injective n m h5)

theorem Contains_append_identifier (msg : String) (gn gm : github)
    (hnm : gn.prNumber ≠ gm.prNumber)
    (h : Contains msg gn.previewIdentifier = false) :
    Contains (msg ++ gm.previewIdentifier) gn.previewIdentifier = false := by
  rw [Contains_eq_false_iff] at h ⊢
  rw [String.data_append, previewIdentifier_data, previewIdentifier_data] at *
  exact fun hc => h (identifierChars_infix_append _ _ _ hnm hc)

/-! ## Lemmas: the gateway -/

theorem callGitHub_eq {σ : Type} (gh : github) (t : Transport σ)
    (token method repo : String) (body : Option Json) (path : List String) (w : Net σ) :
    gh.callGitHub t token method repo body path w
      = (gateway (t (apiRequest token method repo body path) w.remote).1,
         w.after t (apiRequest token method repo body path)) := by
  unfold github.callGitHub Do
  simp only [apiRequest, apiRoot, Net.after]
  cases h : (t _ w.remote).1 with
  | error e => simp [gateway]
  | ok r =>
    simp only [gateway]
    by_cases hs : r.StatusCode < 200 ∨ r.StatusCode ≥ 400
    · simp only [hs, if_true]
      split <;> rename_i heq <;> simp [heq]
    · simp only [hs, if_false]

theorem gateway_failed (out : Except String Response) (h : failedOutcome out = true) :
    ∃ e, gateway out = Except.error e := by
  cases out with
  | error e => exact ⟨e, rfl⟩
  | ok r =>
    simp only [failedOutcome, decide_eq_true_eq] at h
    simp only [gateway, h, if_true]
    split
    · exact ⟨_, rfl⟩
    · exact ⟨_, rfl⟩

theorem gateway_passed (out : Except String Response) (h : failedOutcome out = false) :
    ∃ r, out = Except.ok r ∧ gateway out = Except.ok r := by
  cases out with
  | error e => simp [failedOutcome] at h
  | ok r =>
    simp only [failedOutcome, decide_eq_false_iff_not] at h
    exact ⟨r, rfl, by simp only [gateway, h, if_false]⟩

theorem gateway_ok_iff (out : Except String Response) (r : Response) :
    gateway out = Except.ok r ↔ out = Except.ok r ∧ failedOutcome out = false := by
  constructor
  · intro h
    cases hf : failedOutcome out with
    | true =>
      obtain ⟨e, he⟩ := gateway_failed out hf
      rw [he] at h; cases h
    | false =>
      obtain ⟨r2, h1, h2⟩ := gateway_passed out hf
      rw [h2] at h
      cases h
      exact ⟨h1, rfl⟩
  · rintro ⟨h1, h2⟩
    obtain ⟨r2, h3, h4⟩ := gateway_passed out h2
    rw [h4, ← h3, h1]

/-! ## Lemmas: the paths through `Notify` -/

theorem listRequest_eq (gh : github) (token : String) :
    apiRequest token "GET" gh.repositoryName none ["issues", fmtInt gh.prNumber, "comments"]
      = gh.listRequest token := rfl

theorem createRequest_eq (gh : github) (token message : String) :
    apiRequest token "POST" gh.repositoryName
        (some (Json.obj [("body", Json.str (message ++ gh.previewIdentifier))]))
        ["issues", fmtInt gh.prNumber, "comments"]
      = gh.createRequest token message := rfl

theorem updateRequest_eq (gh : github) (token message : String) (id : Int) :
    apiRequest token "PATCH" gh.repositoryName
        (some (Json.obj [("body", Json.str (message ++ gh.previewIdentifier))]))
        ["issues", "comments", fmtInt id]
      = gh.updateRequest token message id := rfl

theorem Notify_no_token {σ : Type} (gh : github) (t : Transport σ) (env : Env)
    (message : String) (w : Net σ) (h : Getenv env "GITHUB_TOKEN" = "") :
    gh.Notify t env message w = (some "missing GITHUB_TOKEN", w) := by
  simp [github.Notify, h]

theorem Notify_list_failed {σ : Type} (gh : github) (t : Transport σ) (env : Env)
    (message : String) (w : Net σ) (e : String)
    (htok : Getenv env "GITHUB_TOKEN" ≠ "")
    (hget : gateway (t (gh.listRequest (Getenv env "GITHUB_TOKEN")) w.remote).1
      = Except.error e) :
    gh.Notify t env message w
      = (some ("failed to retrieve PR comments: " ++ e),
         w.after t (gh.listRequest (Getenv env "GITHUB_TOKEN"))) := by
  simp only [github.Notify, htok, if_false, callGitHub_eq, listRequest_eq, hget]

theorem Notify_create {σ : Type} (gh : github) (t : Transport σ) (env : Env)
    (message : String) (w : Net σ) (resp : Response)
    (htok : Getenv env "GITHUB_TOKEN" ≠ "")
    (hget : gateway (t (gh.listRequest (Getenv env "GITHUB_TOKEN")) w.remote).1
      = Except.ok resp)
    (hnone : (listedComments resp.Body).find?
      (fun c => Contains c.Body gh.previewIdentifier) = none) :
    gh.Notify t env message w
      = ((match gateway (t (gh.createRequest (Getenv env "GITHUB_TOKEN") message)
                  (w.after t (gh.listRequest (Getenv env "GITHUB_TOKEN"))).remote).1 with
          | Except.error err => some ("failed to create new comment: " ++ err)
          | Except.ok _ => none),
         (w.after t (gh.listRequest (Getenv env "GITHUB_TOKEN"))).after t
           (gh.createRequest (Getenv env "GITHUB_TOKEN") message)) := by
  simp only [listedComments] at hnone
  simp only [github.Notify, htok, if_false, callGitHub_eq, listRequest_eq, hget,
    github.getGitHubCommentMessage, hnone, createRequest_eq]
  split <;> rename_i heq <;> obtain ⟨h1, h2⟩ := Prod.mk.inj heq <;> subst h2 <;> simp [h1]

theorem Notify_update {σ : Type} (gh : github) (t : Transport σ) (env : Env)
    (message : String) (w : Net σ) (resp : Response) (c : GitHubComment)
    (htok : Getenv env "GITHUB_TOKEN" ≠ "")
    (hget : gateway (t (gh.listRequest (Getenv env "GITHUB_TOKEN")) w.remote).1
      = Except.ok resp)
    (hsome : (listedComments resp.Body).find?
      (fun c => Contains c.Body gh.previewIdentifier) = some c) :
    gh.Notify t env message w
      = ((match gateway (t (gh.updateRequest (Getenv env "GITHUB_TOKEN") message c.ID)
                  (w.after t (gh.listRequest (Getenv env "GITHUB_TOKEN"))).remote).1 with
          | Except.error err => some ("failed to update comment: " ++ err)
          | Except.ok _ => none),
         (w.after t (gh.listRequest (Getenv env "GITHUB_TOKEN"))).after t
           (gh.updateRequest (Getenv env "GITHUB_TOKEN") message c.ID)) := by
  simp only [listedComments] at hsome
  simp only [github.Notify, htok, if_false, callGitHub_eq, listRequest_eq, hget,
    github.getGitHubCommentMessage, hsome, updateRequest_eq]
  split <;> rename_i heq <;> obtain ⟨h1, h2⟩ := Prod.mk.inj heq <;> subst h2 <;> simp [h1]

/-! ## Lemmas: decoding -/

theorem Decode_errResp_message (s : String) :
    Decode storeErrResp (Body.json (Json.obj [("message", Json.str s)])) { Message := "" }
      = ({ Message := s }, none) := by
  simp [Decode, storeErrResp, storeStruct, storeString]

theorem Decode_errResp_malformed (e : String) :
    Decode storeErrResp (Body.malformed e) { Message := "" } = ({ Message := "" }, some e) := rfl

theorem storeGitHubComment_commentJson (c : GitHubComment) (err : Option String) :
    storeGitHubComment (commentJson c) GitHubComment.zero err = (c, err) := by
  have h1 : foldName "body" ≠ foldName "id" := by decide
  simp [storeGitHubComment, storeStruct, commentJson, storeInt, storeString,
    GitHubComment.zero, h1]

theorem storeSlice_comments_aux (cs acc : List GitHubComment) (err : Option String) :
    (cs.map commentJson).foldl
        (fun acc item =>
          (acc.1 ++ [(storeGitHubComment item GitHubComment.zero acc.2).1],
            (storeGitHubComment item GitHubComment.zero acc.2).2))
        (acc, err)
      = (acc ++ cs, err) := by
  induction cs generalizing acc with
  | nil => simp
  | cons c cs ih =>
    simp only [List.map_cons, List.foldl_cons, storeGitHubComment_commentJson]
    rw [ih]
    simp

/-- Listing reads back what the platform rendered: a JSON array of comment
objects decodes to the comments themselves. -/
theorem listedComments_commentJson (cs : List GitHubComment) :
    listedComments (Body.json (Json.arr (cs.map commentJson))) = cs := by
  simp only [listedComments, Decode, storeGitHubComments, storeSlice, List.drop_nil,
    List.headD_nil]
  rw [storeSlice_comments_aux]
  simp

/-! ## The HTTP gateway -/

/-- C4, as stated, fails: a response with status 304, which is not a 2xx
status, is returned by `callGitHub` as it is and without an error. -/
theorem callGitHub_returns_304 :
    ((sampleContext 1).callGitHub
        (scripted (Except.ok { StatusCode := 304, Body := Body.malformed "EOF" })
          (Except.ok { StatusCode := 304, Body := Body.malformed "EOF" }))
        "secret" "GET" "o/r" none ["issues", "1", "comments"] { remote := (), log := [] }).1
      = Except.ok { StatusCode := 304, Body := Body.malformed "EOF" }
    ∧ ¬ ((200 : Int) ≤ 304 ∧ (304 : Int) ≤ 299) :=
  ⟨rfl, by decide⟩

/-- C4, amended: when the request is answered with a response of status `s`,
`callGitHub` returns that response without error if and only if
`200 ≤ s ≤ 399`; for every other status it returns an error and no response.
The error is the `message` member decoded from the body, or, when the body
cannot be decoded, `failed to decode body: ` followed by the decoder's error. -/
theorem callGitHub_status_classification {σ : Type} (gh : github) (t : Transport σ)
    (token method repo : String) (body : Option Json) (path : List String) (w : Net σ)
    (r : Response)
    (h : (t (apiRequest token method repo body path) w.remote).1 = Except.ok r) :
    ((gh.callGitHub t token method repo body path w).1 = Except.ok r
        ↔ 200 ≤ r.StatusCode ∧ r.StatusCode ≤ 399)
    ∧ (¬ (200 ≤ r.StatusCode ∧ r.StatusCode ≤ 399) →
        (gh.callGitHub t token method repo body path w).1
          = match Decode storeErrResp r.Body { Message := "" } with
            | (_, some err) => Except.error ("failed to decode body: " ++ err)
            | (errResp, none) => Except.error errResp.Message)
    ∧ (∀ s : String, ¬ (200 ≤ r.StatusCode ∧ r.StatusCode ≤ 399) →
        r.Body = Body.json (Json.obj [("message", Json.str s)]) →
        (gh.callGitHub t token method repo body path w).1 = Except.error s)
    ∧ (∀ e : String, ¬ (200 ≤ r.StatusCode ∧ r.StatusCode ≤ 399) →
        r.Body = Body.malformed e →
        (gh.callGitHub t token method repo body path w).1
          = Except.error ("failed to decode body: " ++ e)) := by
  have hrange : (200 ≤ r.StatusCode ∧ r.StatusCode ≤ 399)
      ↔ ¬ (r.StatusCode < 200 ∨ r.StatusCode ≥ 400) := by omega
  have hbad : ¬ (200 ≤ r.StatusCode ∧ r.StatusCode ≤ 399) →
      gateway (Except.ok r)
        = match Decode storeErrResp r.Body { Message := "" } with
          | (_, some err) => Except.error ("failed to decode body: " ++ err)
          | (errResp, none) => Except.error errResp.Message := by
    intro hn
    have hn2 : r.StatusCode < 200 ∨ r.StatusCode ≥ 400 := by omega
    simp only [gateway, hn2, if_true]
  rw [callGitHub_eq, h]
  refine ⟨?_, hbad, ?_, ?_⟩
  · rw [gateway_ok_iff, hrange]
    simp [failedOutcome]
  · intro s hn hb
    rw [hbad hn, hb, Decode_errResp_message]
  · intro e hn hb
    rw [hbad hn, hb, Decode_errResp_malformed]

/-- The amended C4 at work: a 404 with the body `{"message": "Not Found"}` is
what the remote end answers, and `callGitHub` returns the error `Not Found`. -/
theorem callGitHub_status_classification_witness :
    (scripted
        (Except.ok { StatusCode := 404,
                     Body := Body.json (Json.obj [("message", Json.str "Not Found")]) })
        (Except.error "unused")
        (apiRequest "secret" "GET" "o/r" none ["issues", "1", "comments"]) ()).1
      = Except.ok { StatusCode := 404,
                    Body := Body.json (Json.obj [("message", Json.str "Not Found")]) }
    ∧ ((sampleContext 1).callGitHub
        (scripted
          (Except.ok { StatusCode := 404,
                       Body := Body.json (Json.obj [("message", Json.str "Not Found")]) })
          (Except.error "unused"))
        "secret" "GET" "o/r" none ["issues", "1", "comments"] { remote := (), log := [] }).1
      = Except.error "Not Found" :=
  ⟨rfl,
   (callGitHub_status_classification (sampleContext 1)
      (scripted
        (Except.ok { StatusCode := 404,
                     Body := Body.json (Json.obj [("message", Json.str "Not Found")]) })
        (Except.error "unused"))
      "secret" "GET" "o/r" none ["issues", "1", "comments"] { remote := (), log := [] }
      { StatusCode := 404, Body := Body.json (Json.obj [("message", Json.str "Not Found")]) }
      rfl).2.2.1 "Not Found" (by decide) rfl⟩

/-! ## `Notify`: the credential -/

/-- C6: when `GITHUB_TOKEN` is not set or is empty, `Notify` returns the error
`missing GITHUB_TOKEN` and leaves the world as it was: no request is sent (the
record of exchanges is unchanged) and the remote end keeps its state. -/
theorem Notify_missing_credential {σ : Type} (gh : github) (t : Transport σ) (env : Env)
    (message : String) (w : Net σ)
    (h : env "GITHUB_TOKEN" = none ∨ env "GITHUB_TOKEN" = some "") :
    gh.Notify t env message w = (some "missing GITHUB_TOKEN", w) := by
  apply Notify_no_token
  rcases h with h | h <;> simp [Getenv, h]

/-- C6 at work: no variable set, against a remote end holding one comment. -/
theorem Notify_missing_credential_witness :
    (emptyEnv "GITHUB_TOKEN" = none ∨ emptyEnv "GITHUB_TOKEN" = some "")
    ∧ (sampleContext 42).Notify (gitHubAPI "o/r" 42) emptyEnv "status ok"
        { remote := [{ ID := 5, Body := "hi" }], log := [] }
      = (some "missing GITHUB_TOKEN", { remote := [{ ID := 5, Body := "hi" }], log := [] }) :=
  ⟨Or.inl rfl,
   Notify_missing_credential (sampleContext 42) (gitHubAPI "o/r" 42) emptyEnv "status ok"
     { remote := [{ ID := 5, Body := "hi" }], log := [] } (Or.inl rfl)⟩

/-! ## `Notify`: a rejected create -/

/-- C3, as stated, fails.  With the list answered by an empty array and the
`POST` answered 422 with the body `{"message": "Validation failed"}`, the error
`Notify` returns is `failed to create new comment: Validation failed`, which is
not the string `Validation failed`.  And with the `POST` answered 304, a status
that is not 2xx, `Notify` does not fail at all. -/
theorem Notify_create_error_is_prefixed :
    ((sampleContext 42).Notify
        (scripted
          (Except.ok { StatusCode := 200, Body := Body.json (Json.arr []) })
          (Except.ok { StatusCode := 422,
                       Body := Body.json (Json.obj [("message", Json.str "Validation failed")]) }))
        (tokenEnv "secret") "status ok" { remote := (), log := [] }).1
      = some "failed to create new comment: Validation failed"
    ∧ "failed to create new comment: Validation failed" ≠ "Validation failed"
    ∧ ((sampleContext 42).Notify
        (scripted
          (Except.ok { StatusCode := 200, Body := Body.json (Json.arr []) })
          (Except.ok { StatusCode := 304,
                       Body := Body.json (Json.obj [("message", Json.str "Not Modified")]) }))
        (tokenEnv "secret") "status ok" { remote := (), log := [] }).1
      = none :=
  ⟨by decide, by decide, by decide⟩

/-- C3, amended: for every string `s`, when the list request is answered with a
status from 200 to 399 and no listed comment bears the identifier, and the
`POST` is answered with a status below 200 or from 400 on (422 for one) and the
body `{"message": s}`, `Notify` fails, and the text of its error is
`failed to create new comment: ` followed by exactly `s`. -/
theorem Notify_create_rejected {σ : Type} (gh : github) (t : Transport σ) (env : Env)
    (message : String) (w : Net σ) (resp : Response) (st : Int) (s : String)
    (htok : Getenv env "GITHUB_TOKEN" ≠ "")
    (hlist : (t (gh.listRequest (Getenv env "GITHUB_TOKEN")) w.remote).1 = Except.ok resp)
    (hok : 200 ≤ resp.StatusCode ∧ resp.StatusCode ≤ 399)
    (hnone : ∀ c ∈ listedComments resp.Body, Contains c.Body gh.previewIdentifier = false)
    (hpost : (t (gh.createRequest (Getenv env "GITHUB_TOKEN") message)
        (t (gh.listRequest (Getenv env "GITHUB_TOKEN")) w.remote).2).1
      = Except.ok { StatusCode := st,
                    Body := Body.json (Json.obj [("message", Json.str s)]) })
    (hst : st < 200 ∨ st ≥ 400) :
    (gh.Notify t env message w).1 = some ("failed to create new comment: " ++ s) := by
  have hget : gateway (t (gh.listRequest (Getenv env "GITHUB_TOKEN")) w.remote).1
      = Except.ok resp := by
    rw [gateway_ok_iff, hlist]
    refine ⟨rfl, ?_⟩
    simp only [failedOutcome, decide_eq_false_iff_not]
    omega
  have hfind : (listedComments resp.Body).find?
      (fun c => Contains c.Body gh.previewIdentifier) = none := by
    rw [List.find?_eq_none]
    intro c hc
    simp [hnone c hc]
  rw [Notify_create gh t env message w resp htok hget hfind]
  simp only [Net.after, hpost, gateway, hst, if_true, Decode_errResp_message]

/-- The amended C3 at work, on the status and the message of the specification. -/
theorem Notify_create_rejected_witness :
    ((sampleContext 42).Notify
        (scripted
          (Except.ok { StatusCode := 200, Body := Body.json (Json.arr []) })
          (Except.ok { StatusCode := 422,
                       Body := Body.json (Json.obj [("message", Json.str "Validation failed")]) }))
        (tokenEnv "secret") "status ok" { remote := (), log := [] }).1
      = some ("failed to create new comment: " ++ "Validation failed") :=
  Notify_create_rejected (sampleContext 42)
    (scripted
      (Except.ok { StatusCode := 200, Body := Body.json (Json.arr []) })
      (Except.ok { StatusCode := 422,
                   Body := Body.json (Json.obj [("message", Json.str "Validation failed")]) }))
    (tokenEnv "secret") "status ok" { remote := (), log := [] }
    { StatusCode := 200, Body := Body.json (Json.arr []) } 422 "Validation failed"
    (by decide) rfl (by decide) (by intro c hc; cases hc) rfl (by decide)

/-! ## `Notify`: failures are terminal -/

theorem terminal_one (a : Exchange) (res : Option String) (ha : res ≠ none) :
    ∀ (pre : List Exchange) (ex : Exchange) (post : List Exchange),
      [a] = pre ++ ex :: post → failedOutcome ex.outcome = true → post = [] ∧ res ≠ none := by
  intro pre ex post h _
  rcases pre with _ | ⟨p, pre⟩
  · simp only [List.nil_append, List.cons.injEq] at h
    exact ⟨h.2.symm, ha⟩
  · simp at h

theorem terminal_two (a b : Exchange) (res : Option String)
    (ha : failedOutcome a.outcome = false)
    (hb : failedOutcome b.outcome = true → res ≠ none) :
    ∀ (pre : List Exchange) (ex : Exchange) (post : List Exchange),
      [a, b] = pre ++ ex :: post → failedOutcome ex.outcome = true → post = [] ∧ res ≠ none := by
  intro pre ex post h hf
  rcases pre with _ | ⟨p, _ | ⟨q, pre⟩⟩
  · simp only [List.nil_append, List.cons.injEq] at h
    rw [← h.1, ha] at hf
    cases hf
  · simp only [List.cons_append, List.nil_append, List.cons.injEq] at h
    rw [← h.2.1] at hf
    exact ⟨h.2.2.symm, hb hf⟩
  · simp at h

theorem write_result_of_failed (out : Except String Response) (what : String)
    (h : failedOutcome out = true) :
    (match gateway out with
      | Except.error err => some (what ++ err)
      | Except.ok _ => none) ≠ none := by
  obtain ⟨e, he⟩ := gateway_failed out h
  rw [he]
  simp

/-- C5: failures are terminal.  The exchanges one call of `Notify` adds to the
record are none, or the list request alone, or the list request followed by
exactly one write (the `POST`, or the `PATCH` of one comment).  Whenever an
exchange of the call failed (transport error, or a status below 200 or from
400 on), it is the last exchange of the call and `Notify` returns an error: a
failed list request is followed by no write, and a failed `PATCH` by no `POST`.
So a call makes at most one `GET` and at most one write. -/
theorem Notify_failures_terminal {σ : Type} (gh : github) (t : Transport σ) (env : Env)
    (message : String) (w : Net σ) :
    ∃ new : List Exchange,
      (gh.Notify t env message w).2.log = w.log ++ new
      ∧ (new = []
          ∨ (∃ o1, new = [{ request := gh.listRequest (Getenv env "GITHUB_TOKEN"),
                            outcome := o1 }])
          ∨ (∃ o1 o2, new = [{ request := gh.listRequest (Getenv env "GITHUB_TOKEN"),
                               outcome := o1 },
                             { request := gh.createRequest (Getenv env "GITHUB_TOKEN") message,
                               outcome := o2 }])
          ∨ (∃ o1 o2 id, new = [{ request := gh.listRequest (Getenv env "GITHUB_TOKEN"),
                                  outcome := o1 },
                                { request :=
                                    gh.updateRequest (Getenv env "GITHUB_TOKEN") message id,
                                  outcome := o2 }]))
      ∧ (∀ (pre : List Exchange) (ex : Exchange) (post : List Exchange),
          new = pre ++ ex :: post → failedOutcome ex.outcome = true →
          post = [] ∧ (gh.Notify t env message w).1 ≠ none)
      ∧ (new.filter (fun ex => decide (ex.request.Method = "GET"))).length ≤ 1
      ∧ (new.filter (fun ex => ex.request.isWrite)).length ≤ 1 := by
  by_cases htok : Getenv env "GITHUB_TOKEN" = ""
  · refine ⟨[], ?_, Or.inl rfl, ?_, by simp, by simp⟩
    · rw [Notify_no_token gh t env message w htok]; simp
    · intro pre ex post h; simp at h
  · cases hg : gateway (t (gh.listRequest (Getenv env "GITHUB_TOKEN")) w.remote).1 with
    | error e =>
      rw [Notify_list_failed gh t env message w e htok hg]
      refine ⟨_, rfl, Or.inr (Or.inl ⟨_, rfl⟩), ?_, ?_, ?_⟩
      · exact terminal_one _ _ (by simp)
      · simp [github.listRequest]
      · simp [github.listRequest, Request.isWrite]
    | ok resp =>
      have hpass := ((gateway_ok_iff _ _).mp hg).2
      cases hf : (listedComments resp.Body).find?
          (fun c => Contains c.Body gh.previewIdentifier) with
      | none =>
        rw [Notify_create gh t env message w resp htok hg hf]
        refine ⟨_, by simp only [Net.after, List.append_assoc]; rfl,
          Or.inr (Or.inr (Or.inl ⟨_, _, rfl⟩)), ?_, ?_, ?_⟩
        · exact terminal_two _ _ _ hpass (write_result_of_failed _ _)
        · simp [github.listRequest, github.createRequest]
        · simp [github.listRequest, github.createRequest, Request.isWrite]
      | some c =>
        rw [Notify_update gh t env message w resp c htok hg hf]
        refine ⟨_, by simp only [Net.after, List.append_assoc]; rfl,
          Or.inr (Or.inr (Or.inr ⟨_, _, c.ID, rfl⟩)), ?_, ?_, ?_⟩
        · exact terminal_two _ _ _ hpass (write_result_of_failed _ _)
        · simp [github.listRequest, github.updateRequest]
        · simp [github.listRequest, github.updateRequest, Request.isWrite]

/-! ## `Notify`: the upsert decision -/

theorem find?_first {α : Type} (p : α → Bool) (pre : List α) (c : α) (post : List α)
    (hpre : ∀ x ∈ pre, p x = false) (hc : p c = true) :
    (pre ++ c :: post).find? p = some c := by
  induction pre with
  | nil => simp [hc]
  | cons a pre ih =>
    have ha : p a = false := hpre a (by simp)
    simp only [List.cons_append, List.find?_cons, ha]
    exact ih (fun x hx => hpre x (by simp [hx]))

/-- C9: first match wins.  With a credential present and the list request
answered with a status from 200 to 399, let `cs` be the comments listed.  If
some comment of `cs` bears the identifier, then for the earliest such comment
`c` (every comment before it in `cs` is without the identifier) the call adds
exactly two exchanges, the list request and one `PATCH` addressed to
`issues/comments/{c.ID}`, and no `POST`.  If no comment of `cs` bears the
identifier, the call adds exactly the list request and one `POST` addressed to
`issues/{prNumber}/comments`, and no `PATCH`.  In both cases the body sent is
`{"body": message ++ identifier}`. -/
theorem Notify_first_match_wins {σ : Type} (gh : github) (t : Transport σ) (env : Env)
    (message : String) (w : Net σ) (resp : Response) (cs : List GitHubComment)
    (htok : Getenv env "GITHUB_TOKEN" ≠ "")
    (hlist : (t (gh.listRequest (Getenv env "GITHUB_TOKEN")) w.remote).1 = Except.ok resp)
    (hok : 200 ≤ resp.StatusCode ∧ resp.StatusCode ≤ 399)
    (hcs : listedComments resp.Body = cs) :
    (∀ (pre : List GitHubComment) (c : GitHubComment) (post : List GitHubComment),
        cs = pre ++ c :: post →
        (∀ x ∈ pre, Contains x.Body gh.previewIdentifier = false) →
        Contains c.Body gh.previewIdentifier = true →
        ∃ o2, ((gh.Notify t env message w).2.log.map (fun ex => ex.request)
                = w.log.map (fun ex => ex.request)
                  ++ [gh.listRequest (Getenv env "GITHUB_TOKEN"),
                      gh.updateRequest (Getenv env "GITHUB_TOKEN") message c.ID])
          ∧ (gh.Notify t env message w).2.log
                = w.log ++ [{ request := gh.listRequest (Getenv env "GITHUB_TOKEN"),
                              outcome := Except.ok resp },
                            { request :=
                                gh.updateRequest (Getenv env "GITHUB_TOKEN") message c.ID,
                              outcome := o2 }]
          ∧ (gh.updateRequest (Getenv env "GITHUB_TOKEN") message c.ID).Method = "PATCH"
          ∧ (gh.updateRequest (Getenv env "GITHUB_TOKEN") message c.ID).URL
                = JoinPath "https://api.github.com/repos/"
                    [gh.repositoryName, "issues", "comments", fmtInt c.ID]
          ∧ (gh.updateRequest (Getenv env "GITHUB_TOKEN") message c.ID).Body
                = some (Json.obj [("body", Json.str (message ++ gh.previewIdentifier))]))
    ∧ ((∀ x ∈ cs, Contains x.Body gh.previewIdentifier = false) →
        ∃ o2, ((gh.Notify t env message w).2.log.map (fun ex => ex.request)
                = w.log.map (fun ex => ex.request)
                  ++ [gh.listRequest (Getenv env "GITHUB_TOKEN"),
                      gh.createRequest (Getenv env "GITHUB_TOKEN") message])
          ∧ (gh.Notify t env message w).2.log
                = w.log ++ [{ request := gh.listRequest (Getenv env "GITHUB_TOKEN"),
                              outcome := Except.ok resp },
                            { request := gh.createRequest (Getenv env "GITHUB_TOKEN") message,
                              outcome := o2 }]
          ∧ (gh.createRequest (Getenv env "GITHUB_TOKEN") message).Method = "POST"
          ∧ (gh.createRequest (Getenv env "GITHUB_TOKEN") message).URL
                = JoinPath "https://api.github.com/repos/"
                    [gh.repositoryName, "issues", fmtInt gh.prNumber, "comments"]
          ∧ (gh.createRequest (Getenv env "GITHUB_TOKEN") message).Body
                = some (Json.obj [("body", Json.str (message ++ gh.previewIdentifier))])) := by
  have hget : gateway (t (gh.listRequest (Getenv env "GITHUB_TOKEN")) w.remote).1
      = Except.ok resp := by
    rw [gateway_ok_iff, hlist]
    refine ⟨rfl, ?_⟩
    simp only [failedOutcome, decide_eq_false_iff_not]
    omega
  constructor
  · intro pre c post hsplit hpre hc
    have hfind : (listedComments resp.Body).find?
        (fun c => Contains c.Body gh.previewIdentifier) = some c := by
      rw [hcs, hsplit]
      exact find?_first _ pre c post hpre hc
    rw [Notify_update gh t env message w resp c htok hget hfind]
    refine ⟨(t (gh.updateRequest (Getenv env "GITHUB_TOKEN") message c.ID)
      (w.after t (gh.listRequest (Getenv env "GITHUB_TOKEN"))).remote).1, ?_, ?_, rfl, rfl, rfl⟩
    · simp [Net.after]
    · simp only [Net.after, hlist, List.append_assoc]; rfl
  · intro hnone
    have hfind : (listedComments resp.Body).find?
        (fun c => Contains c.Body gh.previewIdentifier) = none := by
      rw [hcs, List.find?_eq_none]
      intro c hc
      simp [hnone c hc]
    rw [Notify_create gh t env message w resp htok hget hfind]
    refine ⟨(t (gh.createRequest (Getenv env "GITHUB_TOKEN") message)
      (w.after t (gh.listRequest (Getenv env "GITHUB_TOKEN"))).remote).1, ?_, ?_, rfl, rfl, rfl⟩
    · simp [Net.after]
    · simp only [Net.after, hlist, List.append_assoc]; rfl

/-- C9 at work: of three listed comments the second and the third bear the
identifier of pull request 42; the one `PATCH` goes to the second, id 7. -/
theorem Notify_first_match_wins_witness :
    ((sampleContext 42).Notify (gitHubAPI "o/r" 42) (tokenEnv "secret") "status ok"
        { remote := [{ ID := 3, Body := "hello" },
                     { ID := 7, Body := "old<!-- okteto-preview 42 -->" },
                     { ID := 9, Body := "dup<!-- okteto-preview 42 -->" }],
          log := [] }).2.log.map (fun ex => ex.request)
      = [(sampleContext 42).listRequest "secret",
         (sampleContext 42).updateRequest "secret" "status ok" 7] :=
  Exists.elim
    ((Notify_first_match_wins (sampleContext 42) (gitHubAPI "o/r" 42) (tokenEnv "secret")
        "status ok"
        { remote := [{ ID := 3, Body := "hello" },
                     { ID := 7, Body := "old<!-- okteto-preview 42 -->" },
                     { ID := 9, Body := "dup<!-- okteto-preview 42 -->" }],
          log := [] }
        { StatusCode := 200,
          Body := Body.json (Json.arr
            ([{ ID := 3, Body := "hello" },
              { ID := 7, Body := "old<!-- okteto-preview 42 -->" },
              { ID := 9, Body := "dup<!-- okteto-preview 42 -->" }].map commentJson)) }
        [{ ID := 3, Body := "hello" },
         { ID := 7, Body := "old<!-- okteto-preview 42 -->" },
         { ID := 9, Body := "dup<!-- okteto-preview 42 -->" }]
        (by decide) rfl (by decide) (listedComments_commentJson _)).1
      [{ ID := 3, Body := "hello" }]
      { ID := 7, Body := "old<!-- okteto-preview 42 -->" }
      [{ ID := 9, Body := "dup<!-- okteto-preview 42 -->" }]
      rfl (by decide) (by decide))
    (fun _ h => h.1)

/-! ## Lemmas: the remote end -/

theorem foldl_max_ge (cs : List GitHubComment) (m : Int) :
    m ≤ cs.foldl (fun m c => max m c.ID) m
    ∧ ∀ c ∈ cs, c.ID ≤ cs.foldl (fun m c => max m c.ID) m := by
  induction cs generalizing m with
  | nil => simp
  | cons a cs ih =>
    simp only [List.foldl_cons, List.mem_cons]
    have h := ih (max m a.ID)
    refine ⟨le_trans (le_max_left _ _) h.1, ?_⟩
    rintro c (rfl | hc)
    · exact le_trans (le_max_right _ _) h.1
    · exact h.2 c hc

theorem lt_freshID (cs : List GitHubComment) (c : GitHubComment) (hc : c ∈ cs) :
    c.ID < freshID cs := by
  have := (foldl_max_ge cs 0).2 c hc
  unfold freshID
  omega

theorem commentURL_injective (repo : String) (a b : Int)
    (h : JoinPath apiRoot [repo, "issues", "comments", fmtInt a]
      = JoinPath apiRoot [repo, "issues", "comments", fmtInt b]) : a = b := by
  apply fmtInt_injective
  have hd := congrArg String.data h
  simp only [JoinPath, String.intercalate, String.intercalate.go, String.data_append,
    List.append_assoc, List.append_cancel_left_eq] at hd
  exact String.ext hd

theorem gitHubAPI_list (gh : github) (token : String) (cs : List GitHubComment) :
    gitHubAPI gh.repositoryName gh.prNumber (gh.listRequest token) cs
      = (Except.ok { StatusCode := 200, Body := Body.json (Json.arr (cs.map commentJson)) },
         cs) := by
  simp [gitHubAPI, github.listRequest]

theorem gitHubAPI_create (gh : github) (token message : String) (cs : List GitHubComment) :
    gitHubAPI gh.repositoryName gh.prNumber (gh.createRequest token message) cs
      = (Except.ok { StatusCode := 201,
                     Body := Body.json (commentJson
                       { ID := freshID cs, Body := message ++ gh.previewIdentifier }) },
         cs ++ [{ ID := freshID cs, Body := message ++ gh.previewIdentifier }]) := by
  simp [gitHubAPI, github.createRequest, writtenBody]

theorem gitHubAPI_update (gh : github) (token message old : String) (cs : List GitHubComment) :
    gitHubAPI gh.repositoryName gh.prNumber (gh.updateRequest token message (freshID cs))
        (cs ++ [{ ID := freshID cs, Body := old }])
      = (Except.ok { StatusCode := 200,
                     Body := Body.json (commentJson
                       { ID := freshID cs, Body := message ++ gh.previewIdentifier }) },
         cs ++ [{ ID := freshID cs, Body := message ++ gh.previewIdentifier }]) := by
  have hfind : (cs ++ [({ ID := freshID cs, Body := old } : GitHubComment)]).find?
      (fun c => decide ((gh.updateRequest token message (freshID cs)).URL
        = JoinPath apiRoot [gh.repositoryName, "issues", "comments", fmtInt c.ID]))
      = some { ID := freshID cs, Body := old } := by
    apply find?_first
    · intro x hx
      simp only [github.updateRequest, decide_eq_false_iff_not]
      intro h
      have := commentURL_injective _ _ _ h
      have := lt_freshID cs x hx
      omega
    · simp [github.updateRequest]
  have hmap : (cs ++ [({ ID := freshID cs, Body := old } : GitHubComment)]).map
      (fun x => if x.ID = freshID cs
        then { x with Body := message ++ gh.previewIdentifier } else x)
      = cs ++ [{ ID := freshID cs, Body := message ++ gh.previewIdentifier }] := by
    rw [List.map_append]
    congr 1
    · conv_rhs => rw [← List.map_id cs]
      apply List.map_congr_left
      intro x hx
      have := lt_freshID cs x hx
      have hne : x.ID ≠ freshID cs := by omega
      simp [hne]
    · simp
  simp only [gitHubAPI]
  rw [hfind]
  simp [github.updateRequest, writtenBody, hmap]

theorem Contains_append_self (s sub : String) : Contains (s ++ sub) sub = true := by
  rw [Contains_iff, String.data_append]
  exact (List.suffix_append _ _).isInfix

theorem gateway_ok_of_status (r : Response) (h : 200 ≤ r.StatusCode ∧ r.StatusCode ≤ 399) :
    gateway (Except.ok r) = Except.ok r := by
  have hn : ¬ (r.StatusCode < 200 ∨ r.StatusCode ≥ 400) := by omega
  simp only [gateway, hn, if_false]

theorem Notify_gitHubAPI_creates (gh : github) (env : Env) (message : String)
    (cs : List GitHubComment) (log : List Exchange)
    (htok : Getenv env "GITHUB_TOKEN" ≠ "")
    (hclean : ∀ c ∈ cs, Contains c.Body gh.previewIdentifier = false) :
    gh.Notify (gitHubAPI gh.repositoryName gh.prNumber) env message
        { remote := cs, log := log }
      = (none,
         { remote := cs ++ [{ ID := freshID cs, Body := message ++ gh.previewIdentifier }],
           log := log ++
             [{ request := gh.listRequest (Getenv env "GITHUB_TOKEN"),
                outcome := Except.ok
                  { StatusCode := 200, Body := Body.json (Json.arr (cs.map commentJson)) } },
              { request := gh.createRequest (Getenv env "GITHUB_TOKEN") message,
                outcome := Except.ok
                  { StatusCode := 201,
                    Body := Body.json (commentJson
                      { ID := freshID cs, Body := message ++ gh.previewIdentifier }) } }] }) := by
  have hget : gateway (gitHubAPI gh.repositoryName gh.prNumber
      (gh.listRequest (Getenv env "GITHUB_TOKEN"))
      ({ remote := cs, log := log } : Net (List GitHubComment)).remote).1
      = Except.ok { StatusCode := 200, Body := Body.json (Json.arr (cs.map commentJson)) } := by
    rw [gitHubAPI_list]
    exact gateway_ok_of_status _ (by constructor <;> simp)
  have hfind : (listedComments
      (Body.json (Json.arr (cs.map commentJson)))).find?
      (fun c => Contains c.Body gh.previewIdentifier) = none := by
    rw [listedComments_commentJson, List.find?_eq_none]
    intro c hc
    simp [hclean c hc]
  rw [Notify_create gh _ env message _ _ htok hget hfind]
  simp only [Net.after, gitHubAPI_list, gitHubAPI_create, List.append_assoc,
    List.singleton_append]
  rw [gateway_ok_of_status _ (by constructor <;> simp)]

theorem Notify_gitHubAPI_updates (gh : github) (env : Env) (message old : String)
    (cs : List GitHubComment) (log : List Exchange)
    (htok : Getenv env "GITHUB_TOKEN" ≠ "")
    (hclean : ∀ c ∈ cs, Contains c.Body gh.previewIdentifier = false)
    (hold : Contains old gh.previewIdentifier = true) :
    gh.Notify (gitHubAPI gh.repositoryName gh.prNumber) env message
        { remote := cs ++ [({ ID := freshID cs, Body := old } : GitHubComment)], log := log }
      = (none,
         { remote := cs ++ [{ ID := freshID cs, Body := message ++ gh.previewIdentifier }],
           log := log ++
             [{ request := gh.listRequest (Getenv env "GITHUB_TOKEN"),
                outcome := Except.ok
                  { StatusCode := 200,
                    Body := Body.json (Json.arr
                      ((cs ++ [({ ID := freshID cs, Body := old } : GitHubComment)]).map commentJson)) } },
              { request := gh.updateRequest (Getenv env "GITHUB_TOKEN") message (freshID cs),
                outcome := Except.ok
                  { StatusCode := 200,
                    Body := Body.json (commentJson
                      { ID := freshID cs, Body := message ++ gh.previewIdentifier }) } }] }) := by
  have hget : gateway (gitHubAPI gh.repositoryName gh.prNumber
      (gh.listRequest (Getenv env "GITHUB_TOKEN"))
      ({ remote := cs ++ [({ ID := freshID cs, Body := old } : GitHubComment)], log := log } :
        Net (List GitHubComment)).remote).1
      = Except.ok { StatusCode := 200,
                    Body := Body.json (Json.arr
                      ((cs ++ [({ ID := freshID cs, Body := old } : GitHubComment)]).map commentJson)) } := by
    rw [gitHubAPI_list]
    exact gateway_ok_of_status _ (by constructor <;> simp)
  have hfind : (listedComments
      (Body.json (Json.arr
        ((cs ++ [({ ID := freshID cs, Body := old } : GitHubComment)]).map commentJson)))).find?
      (fun c => Contains c.Body gh.previewIdentifier)
      = some { ID := freshID cs, Body := old } := by
    rw [listedComments_commentJson]
    exact find?_first _ cs { ID := freshID cs, Body := old } [] hclean hold
  rw [Notify_update gh _ env message _ _ { ID := freshID cs, Body := old } htok hget hfind]
  simp only [Net.after, gitHubAPI_list, gitHubAPI_update, List.append_assoc,
    List.singleton_append]
  rw [gateway_ok_of_status _ (by constructor <;> simp)]

/-! ## `Notify`: idempotence under sequential invocation -/

/-- C1: with a credential present, against the platform's comment API holding a
comment list `cs` in which no body contains the identifier of the pull request,
`Notify m1` followed by `Notify m2` both succeed; afterwards exactly one comment
bears the identifier, its body is `m2` followed by the identifier, and the rest
of the list is as before.  The first call sends the list request and a `POST`,
the second the list request and a `PATCH` to the comment the first created: no
second `POST`. -/
theorem Notify_twice_is_one_comment (gh : github) (env : Env) (m1 m2 : String)
    (cs : List GitHubComment)
    (htok : Getenv env "GITHUB_TOKEN" ≠ "")
    (hclean : ∀ c ∈ cs, Contains c.Body gh.previewIdentifier = false) :
    (gh.Notify (gitHubAPI gh.repositoryName gh.prNumber) env m1
        { remote := cs, log := [] }).1 = none
    ∧ (gh.Notify (gitHubAPI gh.repositoryName gh.prNumber) env m2
        (gh.Notify (gitHubAPI gh.repositoryName gh.prNumber) env m1
          { remote := cs, log := [] }).2).1 = none
    ∧ (gh.Notify (gitHubAPI gh.repositoryName gh.prNumber) env m2
        (gh.Notify (gitHubAPI gh.repositoryName gh.prNumber) env m1
          { remote := cs, log := [] }).2).2.remote
        = cs ++ [{ ID := freshID cs, Body := m2 ++ gh.previewIdentifier }]
    ∧ ((gh.Notify (gitHubAPI gh.repositoryName gh.prNumber) env m2
        (gh.Notify (gitHubAPI gh.repositoryName gh.prNumber) env m1
          { remote := cs, log := [] }).2).2.remote.filter
          (fun c => Contains c.Body gh.previewIdentifier)).map (fun c => c.Body)
        = [m2 ++ gh.previewIdentifier]
    ∧ (gh.Notify (gitHubAPI gh.repositoryName gh.prNumber) env m2
        (gh.Notify (gitHubAPI gh.repositoryName gh.prNumber) env m1
          { remote := cs, log := [] }).2).2.log.map (fun ex => ex.request)
        = [gh.listRequest (Getenv env "GITHUB_TOKEN"),
           gh.createRequest (Getenv env "GITHUB_TOKEN") m1,
           gh.listRequest (Getenv env "GITHUB_TOKEN"),
           gh.updateRequest (Getenv env "GITHUB_TOKEN") m2 (freshID cs)] := by
  rw [Notify_gitHubAPI_creates gh env m1 cs [] htok hclean]
  simp only []
  rw [Notify_gitHubAPI_updates gh env m2 (m1 ++ gh.previewIdentifier) cs _ htok hclean
    (Contains_append_self _ _)]
  refine ⟨trivial, rfl, rfl, ?_, by simp⟩
  have hnil : cs.filter (fun c => Contains c.Body gh.previewIdentifier) = [] := by
    rw [List.filter_eq_nil_iff]
    intro c hc
    simp [hclean c hc]
  simp [List.filter_append, hnil, Contains_append_self]

/-- C1 at work: the message of the specification, twice, against a list that
holds one foreign comment. -/
theorem Notify_twice_is_one_comment_witness :
    ((sampleContext 42).Notify (gitHubAPI "o/r" 42) (tokenEnv "secret") "status ok"
        ((sampleContext 42).Notify (gitHubAPI "o/r" 42) (tokenEnv "secret") "status ok"
          { remote := [{ ID := 5, Body := "hi" }], log := [] }).2).2.remote
      = [{ ID := 5, Body := "hi" }]
          ++ [{ ID := freshID [{ ID := 5, Body := "hi" }],
                Body := "status ok" ++ (sampleContext 42).previewIdentifier }] :=
  (Notify_twice_is_one_comment (sampleContext 42) (tokenEnv "secret") "status ok" "status ok"
    [{ ID := 5, Body := "hi" }] (by decide) (by decide)).2.2.1

/-! ## `newGitHub` -/

theorem TrimPrefix_append (pre b : String) : TrimPrefix (pre ++ b) pre = b := by
  have h : HasPrefix (pre ++ b) pre = true := by
    simp [HasPrefix, String.data_append]
  simp [TrimPrefix, h, String.data_append]

/-- C7: for a payload that decodes without error, with `pull_request.number = n`,
`pull_request.head.ref = r`, `repository.html_url = u` and
`repository.full_name = f`, and the trigger `pull_request` or
`pull_request_target`, `newGitHub` succeeds with the context
`{repositoryURL: u, prNumber: n, defaultBranch: r, repositoryName: f}`, whose
`SourceURL()` is `u` followed by `/pull/` and the decimal rendering of `n`. -/
theorem newGitHub_pull_request (env : Env) (open_ : String → Except String Body)
    (event : Body) (payload : GitHubEvent) (n : Int) (r u f : String)
    (hopen : open_ (Getenv env "GITHUB_EVENT_PATH") = Except.ok event)
    (hdec : Decode storeGitHubEvent event GitHubEvent.zero = (payload, none))
    (hn : payload.PullRequest.Number = n)
    (hr : payload.PullRequest.Head.Ref = r)
    (hu : payload.Repository.HtmlURL = u)
    (hf : payload.Repository.FullName = f)
    (hkind : Getenv env "GITHUB_EVENT_NAME" = "pull_request"
      ∨ Getenv env "GITHUB_EVENT_NAME" = "pull_request_target") :
    newGitHub env open_
      = Except.ok { repositoryURL := u, prNumber := n, defaultBranch := r, repositoryName := f }
    ∧ github.SourceURL
        { repositoryURL := u, prNumber := n, defaultBranch := r, repositoryName := f }
      = u ++ "/pull/" ++ fmtInt n := by
  refine ⟨?_, rfl⟩
  simp only [newGitHub, hopen, hdec, hkind, if_true, hn, hr, hu, hf]

/-- C7 at work: the scenario of the specification. -/
theorem newGitHub_pull_request_witness :
    newGitHub (eventEnv "pull_request" "refs/pull/42/merge")
        (eventFile (Body.json pullRequestEvent))
      = Except.ok { repositoryURL := "https://example.com/o/r", prNumber := 42,
                    defaultBranch := "fix-1", repositoryName := "o/r" }
    ∧ github.SourceURL
        { repositoryURL := "https://example.com/o/r", prNumber := 42,
          defaultBranch := "fix-1", repositoryName := "o/r" }
      = "https://example.com/o/r/pull/42" :=
  ⟨(newGitHub_pull_request (eventEnv "pull_request" "refs/pull/42/merge")
      (eventFile (Body.json pullRequestEvent)) (Body.json pullRequestEvent)
      { PullRequest := { Number := 42, Head := { Ref := "fix-1" } },
        Repository := { HtmlURL := "https://example.com/o/r", FullName := "o/r" },
        ClientPayload := { PullRequest := { Number := 0 } } }
      42 "fix-1" "https://example.com/o/r" "o/r"
      rfl rfl rfl rfl rfl rfl (Or.inl rfl)).1,
   by decide⟩

/-- C8: for a payload that decodes without error, with
`client_payload.pull_request.number = n`, `repository.html_url = u` and
`repository.full_name = f`, the trigger `repository_dispatch` and the raw ref
`refs/heads/` followed by `b`, `newGitHub` succeeds with `prNumber = n`
(whatever `pull_request.number` is), `defaultBranch = b`, `repositoryURL = u`
and `repositoryName = f`. -/
theorem newGitHub_repository_dispatch (env : Env) (open_ : String → Except String Body)
    (event : Body) (payload : GitHubEvent) (n : Int) (b u f : String)
    (hopen : open_ (Getenv env "GITHUB_EVENT_PATH") = Except.ok event)
    (hdec : Decode storeGitHubEvent event GitHubEvent.zero = (payload, none))
    (hn : payload.ClientPayload.PullRequest.Number = n)
    (hu : payload.Repository.HtmlURL = u)
    (hf : payload.Repository.FullName = f)
    (hkind : Getenv env "GITHUB_EVENT_NAME" = "repository_dispatch")
    (href : Getenv env "GITHUB_REF" = "refs/heads/" ++ b) :
    newGitHub env open_
      = Except.ok { repositoryURL := u, prNumber := n, defaultBranch := b,
                    repositoryName := f } := by
  have h1 : ¬ ("repository_dispatch" = "pull_request"
      ∨ "repository_dispatch" = "pull_request_target") := by decide
  simp only [newGitHub, hopen, hdec, hkind, h1, if_true, if_false, hn, hu, hf, href,
    TrimPrefix_append]

/-- C8 at work: the raw ref `refs/heads/feature-x` gives the branch `feature-x`,
and the number comes from `client_payload` (42), not from `pull_request` (7). -/
theorem newGitHub_repository_dispatch_witness :
    newGitHub (eventEnv "repository_dispatch" "refs/heads/feature-x")
        (eventFile (Body.json dispatchEvent))
      = Except.ok { repositoryURL := "https://example.com/o/r", prNumber := 42,
                    defaultBranch := "feature-x", repositoryName := "o/r" } :=
  newGitHub_repository_dispatch (eventEnv "repository_dispatch" "refs/heads/feature-x")
    (eventFile (Body.json dispatchEvent)) (Body.json dispatchEvent)
    { PullRequest := { Number := 7, Head := { Ref := "" } },
      Repository := { HtmlURL := "https://example.com/o/r", FullName := "o/r" },
      ClientPayload := { PullRequest := { Number := 42 } } }
    42 "feature-x" "https://example.com/o/r" "o/r"
    rfl rfl rfl rfl rfl rfl rfl

/-! ## The identifier across pull requests -/

/-- C2, as stated, fails: the message may itself carry an identifier.  The
context of pull request 2, given the message `<!-- okteto-preview 1 -->`, writes
a body that the scan of the context of pull request 1 matches. -/
theorem marker_scoping_fails_for_marked_message :
    (sampleContext 1).prNumber ≠ (sampleContext 2).prNumber
    ∧ (sampleContext 2).getGitHubCommentMessage "<!-- okteto-preview 1 -->"
        = Except.ok (Json.obj [("body",
            Json.str ("<!-- okteto-preview 1 -->" ++ (sampleContext 2).previewIdentifier))])
    ∧ Contains ("<!-- okteto-preview 1 -->" ++ (sampleContext 2).previewIdentifier)
        (sampleContext 1).previewIdentifier = true :=
  ⟨by decide, rfl, by decide⟩

/-- C2, amended: for two contexts with different `prNumber` and every message
that does not itself contain the identifier of the first, the body the second
context writes (the message followed by its own identifier) does not contain
the identifier of the first, so the scan of the first context passes over a
comment with that body, whatever its id. -/
theorem marker_scoping (gn gm : github) (msg : String)
    (hnm : gn.prNumber ≠ gm.prNumber)
    (hmsg : Contains msg gn.previewIdentifier = false) :
    gm.getGitHubCommentMessage msg
      = Except.ok (Json.obj [("body", Json.str (msg ++ gm.previewIdentifier))])
    ∧ Contains (msg ++ gm.previewIdentifier) gn.previewIdentifier = false
    ∧ ∀ id : Int,
        [({ ID := id, Body := msg ++ gm.previewIdentifier } : GitHubComment)].find?
          (fun c => Contains c.Body gn.previewIdentifier) = none := by
  have h := Contains_append_identifier msg gn gm hnm hmsg
  refine ⟨rfl, h, ?_⟩
  intro id
  simp [h]

/-- The amended C2 at work: the same message in the contexts of the pull
requests 1 and 12. -/
theorem marker_scoping_witness :
    Contains ("status ok" ++ (sampleContext 12).previewIdentifier)
      (sampleContext 1).previewIdentifier = false :=
  (marker_scoping (sampleContext 1) (sampleContext 12) "status ok"
    (by decide) (by decide)).2.1

/-- C10: identifiers of different numbers cannot be made by concatenation and do
not overlap.  For `n ≠ m` and a message without the identifier of `n`, the
message followed by the identifier of `m` is without the identifier of `n`; the
identifier of `n` occurs in the identifier of `m` only when `n = m`; and equal
identifiers come from equal numbers. -/
theorem previewIdentifier_separate :
    (∀ (gn gm : github) (msg : String), gn.prNumber ≠ gm.prNumber →
        Contains msg gn.previewIdentifier = false →
        Contains (msg ++ gm.previewIdentifier) gn.previewIdentifier = false)
    ∧ (∀ gn gm : github, Contains gm.previewIdentifier gn.previewIdentifier = true →
        gn.prNumber = gm.prNumber)
    ∧ (∀ gn gm : github, gn.previewIdentifier = gm.previewIdentifier →
        gn.prNumber = gm.prNumber) := by
  have hsub : ∀ gn gm : github, Contains gm.previewIdentifier gn.previewIdentifier = true →
      gn.prNumber = gm.prNumber := by
    intro gn gm h
    by_contra hne
    rw [Contains_iff, previewIdentifier_data, previewIdentifier_data] at h
    have h2 : identifierChars gn.prNumber <:+: [] ++ identifierChars gm.prNumber := by
      simpa using h
    have h3 := identifierChars_infix_append [] _ _ hne h2
    simp [identifierChars] at h3
  refine ⟨fun gn gm msg => Contains_append_identifier msg gn gm, hsub, ?_⟩
  intro gn gm h
  apply hsub
  rw [← h, Contains_iff]

/-- C10 at work: the identifier of pull request 1 occurs neither in that of 12
nor in that of 21, and a message followed by the identifier of 12 does not
contain it. -/
theorem previewIdentifier_separate_witness :
    Contains (sampleContext 12).previewIdentifier (sampleContext 1).previewIdentifier = false
    ∧ Contains (sampleContext 21).previewIdentifier (sampleContext 1).previewIdentifier = false
    ∧ Contains ("done" ++ (sampleContext 12).previewIdentifier)
        (sampleContext 1).previewIdentifier = false :=
  ⟨by decide, by decide,
   previewIdentifier_separate.1 (sampleContext 1) (sampleContext 12) "done"
     (by decide) (by decide)⟩

end DeployPreview
